import Mathlib

/-!
Shallow embedding of the adaptive trading control engine (CASHMONEY repo).
Python floats are modelled as rationals, timestamps as rationals (seconds),
and venue / predictor interactions as explicit oracle inputs.  The functions
below mirror the source files `trading.py`, `trading_2.py` and
`trading/position_manager.py` line by line.
-/

/-- A remembered trade direction, as appended by `adjust_trading_parameters`
(the strings `'buy'` / `'sell'` in the source). -/
inductive Dir
  | buy
  | sell
deriving DecidableEq

/-- The per-instrument mutable state (`models.trading_state.symbol_states[symbol]`). -/
structure SymbolState where
  volume : ℚ
  profitThreshold : ℚ
  tradesHistory : List ℚ
  winRate : ℚ
  consecutiveLosses : ℤ
  isRestricted : Bool
  lastTradeTime : Option ℚ
  recentTradeDirections : List Dir
  tradeDirectionMemorySize : ℕ
  neutralStartTime : Option ℚ
  tradesCount : ℕ
deriving DecidableEq

/-- Python `hist[-n:]`: the trailing `n` elements of a list. -/
def lastN (n : ℕ) (l : List α) : List α := l.drop (l.length - n)

/-- `calculate_win_rate` from `trading.py` (identical in `trading_2.py`):
fraction of entries with positive profit, `0` on the empty list. -/
def calculate_win_rate (trades : List ℚ) : ℚ :=
  if trades = [] then 0
  else (trades.countP (fun profit => decide (profit > 0)) : ℚ) / (trades.length : ℚ)

namespace Trading

/-- `adjust_trading_parameters(symbol, profit)` from `trading.py` (lines 32-60):
append the direction, trim the direction memory from the front, append the
profit to the history, recompute the win rate over the last 10 trades, adjust
the volume with the `1.2` / `0.8` multipliers capped at `2 * INITIAL_VOLUME`
and floored at `0.5 * INITIAL_VOLUME`, and adjust the profit threshold. -/
def adjust_trading_parameters (INITIAL_VOLUME MIN_PROFIT_THRESHOLD : ℚ)
    (s : SymbolState) (profit : ℚ) : SymbolState :=
  let dirs0 := s.recentTradeDirections ++ [if profit > 0 then Dir.buy else Dir.sell]
  let dirs := if dirs0.length > s.tradeDirectionMemorySize then dirs0.tail else dirs0
  let hist := s.tradesHistory ++ [profit]
  let wr := calculate_win_rate (lastN 10 hist)
  let vol :=
    if wr > 0.6 then min (s.volume * 1.2) (INITIAL_VOLUME * 2)
    else if wr < 0.4 then max (s.volume * 0.8) (INITIAL_VOLUME * 0.5)
    else s.volume
  let pt :=
    if profit > s.profitThreshold then s.profitThreshold * 1.1
    else if profit < 0 then max MIN_PROFIT_THRESHOLD (s.profitThreshold * 0.9)
    else s.profitThreshold
  { s with
    recentTradeDirections := dirs
    tradesCount := s.tradesCount + 1
    tradesHistory := hist
    winRate := wr
    volume := vol
    profitThreshold := pt }

end Trading

namespace Trading2

/-- `adjust_trading_parameters(symbol, profit)` from `trading_2.py` (lines 28-47):
the more conservative variant with `1.1` / `0.9` multipliers capped at
`1.5 * INITIAL_VOLUME` and floored at `0.7 * INITIAL_VOLUME`; it keeps no
direction memory. -/
def adjust_trading_parameters (INITIAL_VOLUME MIN_PROFIT_THRESHOLD : ℚ)
    (s : SymbolState) (profit : ℚ) : SymbolState :=
  let hist := s.tradesHistory ++ [profit]
  let wr := calculate_win_rate (lastN 10 hist)
  let vol :=
    if wr > 0.6 then min (s.volume * 1.1) (INITIAL_VOLUME * 1.5)
    else if wr < 0.4 then max (s.volume * 0.9) (INITIAL_VOLUME * 0.7)
    else s.volume
  let pt :=
    if profit > s.profitThreshold then s.profitThreshold * 1.05
    else if profit < 0 then max MIN_PROFIT_THRESHOLD (s.profitThreshold * 0.95)
    else s.profitThreshold
  { s with
    tradesCount := s.tradesCount + 1
    tradesHistory := hist
    winRate := wr
    volume := vol
    profitThreshold := pt }

end Trading2

lemma tp_volume_step_bounds (B mpt : ℚ) (hB : 0 < B) (s : SymbolState) (p : ℚ)
    (hlo : B * 0.5 ≤ s.volume) (hhi : s.volume ≤ B * 2) :
    B * 0.5 ≤ (Trading.adjust_trading_parameters B mpt s p).volume ∧
      (Trading.adjust_trading_parameters B mpt s p).volume ≤ B * 2 := by
  unfold Trading.adjust_trading_parameters
  dsimp only
  split
  · constructor
    · exact le_min (by nlinarith) (by nlinarith)
    · exact min_le_right _ _
  · split
    · constructor
      · exact le_trans (by nlinarith) (le_max_right _ _)
      · exact max_le (by nlinarith) (by nlinarith)
    · exact ⟨hlo, hhi⟩

lemma t2_volume_step_bounds (B mpt : ℚ) (hB : 0 < B) (s : SymbolState) (p : ℚ)
    (hlo : B * 0.5 ≤ s.volume) (hhi : s.volume ≤ B * 2) :
    B * 0.5 ≤ (Trading2.adjust_trading_parameters B mpt s p).volume ∧
      (Trading2.adjust_trading_parameters B mpt s p).volume ≤ B * 2 := by
  unfold Trading2.adjust_trading_parameters
  dsimp only
  split
  · constructor
    · exact le_min (by nlinarith) (by nlinarith)
    · exact le_trans (min_le_right _ _) (by nlinarith)
  · split
    · constructor
      · exact le_trans (by nlinarith) (le_max_right _ _)
      · exact max_le (by nlinarith) (by nlinarith)
    · exact ⟨hlo, hhi⟩

lemma tp_volume_foldl_bounds (B mpt : ℚ) (hB : 0 < B) (profits : List ℚ)
    (s : SymbolState) (hlo : B * 0.5 ≤ s.volume) (hhi : s.volume ≤ B * 2) :
    B * 0.5 ≤ (profits.foldl (Trading.adjust_trading_parameters B mpt) s).volume ∧
      (profits.foldl (Trading.adjust_trading_parameters B mpt) s).volume ≤ B * 2 := by
  induction profits generalizing s with
  | nil => exact ⟨hlo, hhi⟩
  | cons p ps ih =>
      obtain ⟨h1, h2⟩ := tp_volume_step_bounds B mpt hB s p hlo hhi
      exact ih _ h1 h2

lemma t2_volume_foldl_bounds (B mpt : ℚ) (hB : 0 < B) (profits : List ℚ)
    (s : SymbolState) (hlo : B * 0.5 ≤ s.volume) (hhi : s.volume ≤ B * 2) :
    B * 0.5 ≤ (profits.foldl (Trading2.adjust_trading_parameters B mpt) s).volume ∧
      (profits.foldl (Trading2.adjust_trading_parameters B mpt) s).volume ≤ B * 2 := by
  induction profits generalizing s with
  | nil => exact ⟨hlo, hhi⟩
  | cons p ps ih =>
      obtain ⟨h1, h2⟩ := t2_volume_step_bounds B mpt hB s p hlo hhi
      exact ih _ h1 h2

/-- C1: starting from the initial state (volume equal to the configured base
volume `B`), after any sequence of `recordTradeOutcome` calls (the
`adjust_trading_parameters` of `trading.py` or of `trading_2.py`), the
instrument's volume stays within `[0.5 * B, 2 * B]`. -/
theorem C1_volume_always_within_bounds (B mpt : ℚ) (hB : 0 < B)
    (profits : List ℚ) (s0 : SymbolState) (h0 : s0.volume = B) :
    (B * 0.5 ≤ (profits.foldl (Trading.adjust_trading_parameters B mpt) s0).volume ∧
      (profits.foldl (Trading.adjust_trading_parameters B mpt) s0).volume ≤ B * 2) ∧
    (B * 0.5 ≤ (profits.foldl (Trading2.adjust_trading_parameters B mpt) s0).volume ∧
      (profits.foldl (Trading2.adjust_trading_parameters B mpt) s0).volume ≤ B * 2) := by
  have hlo : B * 0.5 ≤ s0.volume := by rw [h0]; nlinarith
  have hhi : s0.volume ≤ B * 2 := by rw [h0]; nlinarith
  exact ⟨tp_volume_foldl_bounds B mpt hB profits s0 hlo hhi,
    t2_volume_foldl_bounds B mpt hB profits s0 hlo hhi⟩

/-- A concrete initial state used by witnesses: base volume `1`. -/
def initState : SymbolState :=
  { volume := 1
    profitThreshold := 1
    tradesHistory := []
    winRate := 0
    consecutiveLosses := 0
    isRestricted := false
    lastTradeTime := none
    recentTradeDirections := []
    tradeDirectionMemorySize := 5
    neutralStartTime := none
    tradesCount := 0 }

/-- Witness for C1 at base volume `1` and outcome sequence `[5, -3, 2]`. -/
theorem C1_volume_always_within_bounds_witness :
    (0 : ℚ) < 1 ∧ initState.volume = 1 ∧
      ((1 : ℚ) * 0.5 ≤
          (([5, -3, 2] : List ℚ).foldl (Trading.adjust_trading_parameters 1 1) initState).volume ∧
        (([5, -3, 2] : List ℚ).foldl (Trading.adjust_trading_parameters 1 1) initState).volume ≤
          (1 : ℚ) * 2) :=
  ⟨by norm_num, rfl, (C1_volume_always_within_bounds 1 1 (by norm_num) [5, -3, 2] initState rfl).1⟩

lemma trim_spec {α : Type} (xs : List α) (d : α) (n : ℕ) (h : xs.length ≤ n) :
    (if (xs ++ [d]).length > n then (xs ++ [d]).tail else xs ++ [d]).length ≤ n ∧
      List.IsSuffix (if (xs ++ [d]).length > n then (xs ++ [d]).tail else xs ++ [d])
        (xs ++ [d]) ∧
      (0 < n →
        (if (xs ++ [d]).length > n then (xs ++ [d]).tail else xs ++ [d]).getLast? = some d) := by
  by_cases hc : (xs ++ [d]).length > n
  · simp only [hc, if_pos]
    refine ⟨?_, List.tail_suffix _, ?_⟩
    · have h1 : (xs ++ [d]).length = xs.length + 1 := by simp
      have h2 := List.length_tail (xs ++ [d])
      omega
    · intro hn
      cases xs with
      | nil => simp at hc; omega
      | cons a l => simp [List.getLast?_concat]
  · simp only [hc, if_neg, not_false_iff]
    exact ⟨by simp at hc ⊢; omega, List.suffix_refl _, fun _ => List.getLast?_concat _⟩

lemma Trading.directions_step (B mpt : ℚ) (s : SymbolState) (p : ℚ)
    (h : s.recentTradeDirections.length ≤ s.tradeDirectionMemorySize) :
    (Trading.adjust_trading_parameters B mpt s p).recentTradeDirections.length ≤
        s.tradeDirectionMemorySize ∧
      List.IsSuffix (Trading.adjust_trading_parameters B mpt s p).recentTradeDirections
        (s.recentTradeDirections ++ [if p > 0 then Dir.buy else Dir.sell]) := by
  have hs := trim_spec s.recentTradeDirections (if p > 0 then Dir.buy else Dir.sell)
    s.tradeDirectionMemorySize h
  exact ⟨hs.1, hs.2.1⟩

lemma Trading.directions_last (B mpt : ℚ) (s : SymbolState) (p : ℚ)
    (h : s.recentTradeDirections.length ≤ s.tradeDirectionMemorySize)
    (hsz : 0 < s.tradeDirectionMemorySize) :
    (Trading.adjust_trading_parameters B mpt s p).recentTradeDirections.getLast? =
      some (if p > 0 then Dir.buy else Dir.sell) := by
  have hs := trim_spec s.recentTradeDirections (if p > 0 then Dir.buy else Dir.sell)
    s.tradeDirectionMemorySize h
  exact hs.2.2 hsz

lemma Trading.adjust_memory_size (B mpt : ℚ) (s : SymbolState) (p : ℚ) :
    (Trading.adjust_trading_parameters B mpt s p).tradeDirectionMemorySize =
      s.tradeDirectionMemorySize := by
  unfold Trading.adjust_trading_parameters
  dsimp only

lemma Trading.directions_foldl (B mpt : ℚ) (profits : List ℚ) (s : SymbolState)
    (h : s.recentTradeDirections.length ≤ s.tradeDirectionMemorySize) :
    (profits.foldl (Trading.adjust_trading_parameters B mpt) s).recentTradeDirections.length ≤
      (profits.foldl (Trading.adjust_trading_parameters B mpt) s).tradeDirectionMemorySize := by
  induction profits generalizing s with
  | nil => exact h
  | cons p ps ih =>
      refine ih _ ?_
      have h1 := (Trading.directions_step B mpt s p h).1
      rw [Trading.adjust_memory_size]
      exact h1

/-- C10: each `recordTradeOutcome` appends `'buy'` exactly when the realized
profit is positive and `'sell'` otherwise (the remembered direction is the
sign of the profit), the list is trimmed from the oldest (front) end, so its
length never exceeds the configured memory size, including after any further
sequence of calls. -/
theorem C10_direction_memory (B mpt : ℚ) (s : SymbolState) (p : ℚ) (profits : List ℚ)
    (h : s.recentTradeDirections.length ≤ s.tradeDirectionMemorySize)
    (hsz : 0 < s.tradeDirectionMemorySize) :
    (Trading.adjust_trading_parameters B mpt s p).recentTradeDirections.length ≤
        s.tradeDirectionMemorySize ∧
      List.IsSuffix (Trading.adjust_trading_parameters B mpt s p).recentTradeDirections
        (s.recentTradeDirections ++ [if p > 0 then Dir.buy else Dir.sell]) ∧
      (Trading.adjust_trading_parameters B mpt s p).recentTradeDirections.getLast? =
        some (if p > 0 then Dir.buy else Dir.sell) ∧
      (profits.foldl (Trading.adjust_trading_parameters B mpt) s).recentTradeDirections.length ≤
        (profits.foldl (Trading.adjust_trading_parameters B mpt) s).tradeDirectionMemorySize :=
  ⟨(Trading.directions_step B mpt s p h).1, (Trading.directions_step B mpt s p h).2,
    Trading.directions_last B mpt s p h hsz, Trading.directions_foldl B mpt profits s h⟩

/-- Witness for C10: a winning trade (profit `7`) is remembered as `'buy'`. -/
theorem C10_direction_memory_witness :
    initState.recentTradeDirections.length ≤ initState.tradeDirectionMemorySize ∧
      0 < initState.tradeDirectionMemorySize ∧
      (Trading.adjust_trading_parameters 1 1 initState 7).recentTradeDirections.getLast? =
        some (if (7 : ℚ) > 0 then Dir.buy else Dir.sell) :=
  ⟨by decide, by decide, (C10_direction_memory 1 1 initState 7 [] (by decide) (by decide)).2.2.1⟩

/-- Python truthiness guard `state.last_trade_time and (now - t).total_seconds() < secs`. -/
def withinSeconds (now : ℚ) (lastTrade : Option ℚ) (secs : ℚ) : Bool :=
  match lastTrade with
  | none => false
  | some t => decide (now - t < secs)

/-- Python `state.last_trade_time and (now - t).total_seconds() / 3600 < 1`. -/
def withinOneHour (now : ℚ) (lastTrade : Option ℚ) : Bool :=
  match lastTrade with
  | none => false
  | some t => decide ((now - t) / 3600 < 1)

/-- Python `max(recent)` over a nonempty list given as head and tail. -/
def listMax (r : ℚ) (rs : List ℚ) : ℚ := rs.foldl max r

/-- Python `min(recent)` over a nonempty list given as head and tail. -/
def listMin (r : ℚ) (rs : List ℚ) : ℚ := rs.foldl min r

namespace Trading

/-- The restriction block of `should_trade_symbol` (`trading.py` lines 83-95):
inside a restriction, suppress during the 1-hour cooldown, lift the restriction
when the win rate has recovered above `MIN_WIN_RATE`, suppress otherwise. -/
def restricted_check (MIN_WIN_RATE : ℚ) (now : ℚ) (s : SymbolState) : Bool × SymbolState :=
  if s.isRestricted then
    if withinOneHour now s.lastTradeTime then (false, s)
    else if s.winRate > MIN_WIN_RATE then (true, { s with isRestricted := false })
    else (false, s)
  else (true, s)

/-- `should_trade_symbol` of `trading.py` (lines 62-95), with the trailing-3
window passed explicitly (it is `lastN 3 s.tradesHistory` at the call site):
suppress when the last 3 trades sum to a loss inside the 120-second cooldown,
or when their spread exceeds twice the profit threshold, then apply the
restriction check. -/
def should_trade_core (MIN_WIN_RATE : ℚ) (now : ℚ) (s : SymbolState)
    (recent : List ℚ) : Bool × SymbolState :=
  match recent with
  | [] => restricted_check MIN_WIN_RATE now s
  | r :: rs =>
      if (r :: rs).sum < 0 ∧ withinSeconds now s.lastTradeTime 120 then (false, s)
      else if listMax r rs - listMin r rs > s.profitThreshold * 2 then (false, s)
      else restricted_check MIN_WIN_RATE now s

/-- `should_trade_symbol(symbol)` from `trading.py`. -/
def should_trade_symbol (MIN_WIN_RATE : ℚ) (now : ℚ) (s : SymbolState) : Bool × SymbolState :=
  should_trade_core MIN_WIN_RATE now s (lastN 3 s.tradesHistory)

end Trading

/-- C7: an instrument whose last 3 realized trades are `[-10, -8, -5]` (a
negative sum) and whose last trade is within the 120-second cooldown window is
not eligible: `should_trade_symbol` returns `false`. -/
theorem C7_three_losses_in_cooldown_suppresses (MIN_WIN_RATE now t : ℚ) (s : SymbolState)
    (hhist : lastN 3 s.tradesHistory = [-10, -8, -5])
    (hlast : s.lastTradeTime = some t) (hcool : now - t < 120) :
    (Trading.should_trade_symbol MIN_WIN_RATE now s).1 = false := by
  unfold Trading.should_trade_symbol
  rw [hhist]
  unfold Trading.should_trade_core
  have hsum : ([-10, -8, -5] : List ℚ).sum = -23 := by norm_num
  have hw : withinSeconds now s.lastTradeTime 120 = true := by
    rw [hlast]; unfold withinSeconds; simpa using hcool
  simp [hsum, hw]

/-- A concrete state for the C7 witness: history exactly `[-10, -8, -5]`,
last trade at time `100`. -/
def c7State : SymbolState :=
  { initState with tradesHistory := [-10, -8, -5], lastTradeTime := some 100 }

/-- Witness for C7 at time `150` (50 seconds after the last trade). -/
theorem C7_three_losses_in_cooldown_suppresses_witness :
    lastN 3 c7State.tradesHistory = [-10, -8, -5] ∧
      c7State.lastTradeTime = some 100 ∧ (150 : ℚ) - 100 < 120 ∧
      (Trading.should_trade_symbol 0.4 150 c7State).1 = false :=
  ⟨by decide, rfl, by norm_num,
    C7_three_losses_in_cooldown_suppresses 0.4 150 100 c7State (by decide) rfl (by norm_num)⟩

/-- The strings returned by `MLPredictor.predict` as a direction
(`'buy'`, `'sell'`, `'hold'`; `None` is modelled by `Option`). -/
inductive MLSig
  | buy
  | sell
  | hold
deriving DecidableEq

/-- The five observable outcomes of `get_signal` in `trading.py`: `noSignal`
is the `(None, None, 0)` tuple (the spec's `hold` / `suppressed`), `neutral`
is the `("neutral", atr, 0)` tuple, `buy` / `sell` / `holdBack` are the
direction strings (the last one is the `'hold'` string forwarded from the
predictor by the final fallback). -/
inductive Verdict
  | noSignal
  | neutral
  | buy
  | sell
  | holdBack
deriving DecidableEq

/-- The tuple returned by `get_signal` together with the symbol state it
leaves behind. -/
structure GetSignalOut where
  verdict : Verdict
  atr : Option ℚ
  est : ℚ
  state : SymbolState
deriving DecidableEq

/-- The last bar's indicator values (`current = df.iloc[-1]`). -/
structure MarketData where
  ADX : ℚ
  RSI : ℚ
  close : ℚ
  SMA_short : ℚ
  SMA_long : ℚ
  ATR : ℚ
deriving DecidableEq

/-- The technical-analysis thresholds (`trading_state.ta_params`). -/
structure TAParams where
  rsi_oversold : ℚ
  rsi_overbought : ℚ
deriving DecidableEq

/-- `calculate_trend_score(current)` from `trading.py` (lines 147-167). -/
def calculate_trend_score (ta : TAParams) (current : MarketData) : ℤ :=
  let t1 : ℤ := if current.ADX > 25 then 2 else 0
  let t2 : ℤ :=
    if current.close > current.SMA_short ∧ current.SMA_short > current.SMA_long then t1 + 1
    else if current.close < current.SMA_short ∧ current.SMA_short < current.SMA_long then t1 - 1
    else t1
  if current.RSI < ta.rsi_oversold ∧ t2 > 0 then t2 + 2
  else if current.RSI > ta.rsi_overbought ∧ t2 < 0 then t2 - 2
  else t2

/-- The configuration constants consumed by `get_signal`. -/
structure SignalConfig where
  MIN_WIN_RATE : ℚ
  NEUTRAL_CONFIDENCE_THRESHOLD : ℚ
  NEUTRAL_HOLD_DURATION : ℚ
  taParams : TAParams
deriving DecidableEq

/-- The external world as observed by one `get_signal` call: the clock, the
venue's bar data (already folded into the final indicator row), the ML
predictor's answer (`none` models an exception raised inside the `try`
block), and the global conservative-mode flag. -/
structure SignalEnv where
  now : ℚ
  rates : Option MarketData
  ml : Option (Option MLSig × ℚ × ℚ)
  conservative : Bool
deriving DecidableEq

/-- `state.recent_trade_directions.count(ml_signal)`: only the `'buy'` and
`'sell'` strings can occur in the memory, so any other candidate counts `0`. -/
def dirCount (dirs : List Dir) (m : Option MLSig) : ℕ :=
  match m with
  | some MLSig.buy => dirs.count Dir.buy
  | some MLSig.sell => dirs.count Dir.sell
  | _ => 0

/-- The part of `get_signal` after the neutral-hold check (`trading.py`
lines 217-267): anti-repetition, confidence gate, predicted-return gate, the
ML boost of the trend score, conservative-mode adjustment and the final
decision with its fallback to the raw ML signal. -/
def get_signal_tail (env : SignalEnv) (current : MarketData) (trend_score : ℤ)
    (ml_signal : Option MLSig) (ml_confidence ml_predicted_return : ℚ)
    (s : SymbolState) : GetSignalOut :=
  if s.recentTradeDirections ≠ [] ∧ 2 ≤ dirCount s.recentTradeDirections ml_signal then
    ⟨Verdict.noSignal, none, 0, s⟩
  else if ¬(ml_signal.isSome ∧ ml_confidence ≥ 0.6) then
    ⟨Verdict.noSignal, none, 0, s⟩
  else if |ml_predicted_return| < 0.0001 ∨ ml_predicted_return < 0 then
    ⟨Verdict.noSignal, none, 0, s⟩
  else
    let ts : ℤ :=
      if ml_signal = some MLSig.buy ∧ ml_confidence > 0.6 then trend_score + 2
      else if ml_signal = some MLSig.sell ∧ ml_confidence > 0.6 then trend_score - 2
      else trend_score
    let potential_profit : ℚ := current.ATR * ((|ts| : ℤ) : ℚ) * 10
    let required_score : ℤ := if env.conservative then 3 else 2
    let potential_profit := if env.conservative then potential_profit * 0.8 else potential_profit
    if ts ≥ required_score then ⟨Verdict.buy, some current.ATR, potential_profit, s⟩
    else if ts ≤ -required_score then ⟨Verdict.sell, some current.ATR, potential_profit, s⟩
    else
      ⟨match ml_signal with
        | some MLSig.buy => Verdict.buy
        | some MLSig.sell => Verdict.sell
        | some MLSig.hold => Verdict.holdBack
        | none => Verdict.noSignal,
        some current.ATR, ml_predicted_return, s⟩

/-- `get_signal(symbol)` from `trading.py` (lines 170-271): eligibility gate,
rates fetch, trend score, ML prediction (an exception yields `(None, None, 0)`),
neutral-state detection (which records the neutral start time), the
neutral-hold check (which clears an expired hold), then `get_signal_tail`. -/
def get_signal (cfg : SignalConfig) (env : SignalEnv) (s0 : SymbolState) : GetSignalOut :=
  let st := Trading.should_trade_symbol cfg.MIN_WIN_RATE env.now s0
  let s1 := st.2
  if st.1 = false then ⟨Verdict.noSignal, none, 0, s1⟩
  else
    match env.rates with
    | none => ⟨Verdict.noSignal, none, 0, s1⟩
    | some current =>
      let trend_score := calculate_trend_score cfg.taParams current
      match env.ml with
      | none => ⟨Verdict.noSignal, none, 0, s1⟩
      | some (ml_signal, ml_confidence, ml_predicted_return) =>
        if ml_confidence ≤ cfg.NEUTRAL_CONFIDENCE_THRESHOLD ∨ |ml_predicted_return| < 0.0001 then
          ⟨Verdict.neutral, some current.ATR, 0, { s1 with neutralStartTime := some env.now }⟩
        else
          match s1.neutralStartTime with
          | some t0 =>
            if env.now - t0 < cfg.NEUTRAL_HOLD_DURATION then ⟨Verdict.noSignal, none, 0, s1⟩
            else
              get_signal_tail env current trend_score ml_signal ml_confidence
                ml_predicted_return { s1 with neutralStartTime := none }
          | none =>
            get_signal_tail env current trend_score ml_signal ml_confidence
              ml_predicted_return s1

lemma Trading.restricted_check_preserves (m now : ℚ) (s : SymbolState) :
    (Trading.restricted_check m now s).2.neutralStartTime = s.neutralStartTime ∧
      (Trading.restricted_check m now s).2.recentTradeDirections = s.recentTradeDirections := by
  unfold Trading.restricted_check
  (repeat' split) <;> exact ⟨rfl, rfl⟩

lemma Trading.should_trade_preserves (m now : ℚ) (s : SymbolState) :
    (Trading.should_trade_symbol m now s).2.neutralStartTime = s.neutralStartTime ∧
      (Trading.should_trade_symbol m now s).2.recentTradeDirections =
        s.recentTradeDirections := by
  unfold Trading.should_trade_symbol Trading.should_trade_core
  split
  · exact Trading.restricted_check_preserves m now s
  · repeat' split
    · exact ⟨rfl, rfl⟩
    · exact ⟨rfl, rfl⟩
    · exact Trading.restricted_check_preserves m now s

lemma get_signal_tail_not_neutral (env : SignalEnv) (current : MarketData) (ts : ℤ)
    (sig : Option MLSig) (conf ret : ℚ) (s : SymbolState) :
    (get_signal_tail env current ts sig conf ret s).verdict ≠ Verdict.neutral := by
  unfold get_signal_tail
  rcases sig with _ | d
  · (repeat' split) <;> simp_all
  · cases d <;> (repeat' split) <;> simp_all <;> (repeat' split) <;> simp

lemma get_signal_tail_repeated (env : SignalEnv) (current : MarketData) (ts : ℤ)
    (sig : Option MLSig) (conf ret : ℚ) (s : SymbolState)
    (hcnt : 2 ≤ dirCount s.recentTradeDirections sig) :
    (get_signal_tail env current ts sig conf ret s).verdict = Verdict.noSignal := by
  have hne : s.recentTradeDirections ≠ [] := by
    intro hnil
    rcases sig with _ | d
    · simp [dirCount] at hcnt
    · cases d <;> simp [dirCount, hnil] at hcnt
  unfold get_signal_tail
  rw [if_pos ⟨hne, hcnt⟩]

lemma get_signal_neutral_sets_start (cfg : SignalConfig) (env : SignalEnv) (s0 : SymbolState)
    (h : (get_signal cfg env s0).verdict = Verdict.neutral) :
    (get_signal cfg env s0).state.neutralStartTime = some env.now := by
  obtain ⟨enow, erates, eml, econs⟩ := env
  unfold get_signal at h ⊢
  dsimp only at h ⊢
  by_cases hst : (Trading.should_trade_symbol cfg.MIN_WIN_RATE enow s0).1 = false
  · rw [if_pos hst] at h; simp at h
  · rw [if_neg hst] at h ⊢
    rcases erates with _ | current
    · simp at h
    · dsimp only at h ⊢
      rcases eml with _ | ⟨sig, conf, ret⟩
      · simp at h
      · dsimp only at h ⊢
        by_cases hneu : conf ≤ cfg.NEUTRAL_CONFIDENCE_THRESHOLD ∨ |ret| < 0.0001
        · rw [if_pos hneu]
        · rw [if_neg hneu] at h
          rcases hnst : (Trading.should_trade_symbol cfg.MIN_WIN_RATE enow s0).2.neutralStartTime
            with _ | t0
          · rw [hnst] at h
            dsimp only at h
            exact absurd h (get_signal_tail_not_neutral _ _ _ _ _ _ _)
          · rw [hnst] at h
            dsimp only at h
            by_cases hho : enow - t0 < cfg.NEUTRAL_HOLD_DURATION
            · rw [if_pos hho] at h; simp at h
            · rw [if_neg hho] at h
              exact absurd h (get_signal_tail_not_neutral _ _ _ _ _ _ _)

lemma get_signal_within_hold (cfg : SignalConfig) (env : SignalEnv) (s0 : SymbolState) (t0 : ℚ)
    (hstart : s0.neutralStartTime = some t0)
    (hwithin : env.now - t0 < cfg.NEUTRAL_HOLD_DURATION) :
    (get_signal cfg env s0).verdict = Verdict.noSignal ∨
      (get_signal cfg env s0).verdict = Verdict.neutral := by
  obtain ⟨enow, erates, eml, econs⟩ := env
  dsimp only at hwithin
  have hpres := (Trading.should_trade_preserves cfg.MIN_WIN_RATE enow s0).1
  unfold get_signal
  dsimp only
  by_cases hst : (Trading.should_trade_symbol cfg.MIN_WIN_RATE enow s0).1 = false
  · rw [if_pos hst]; exact Or.inl rfl
  · rw [if_neg hst]
    rcases erates with _ | current
    · exact Or.inl rfl
    · dsimp only
      rcases eml with _ | ⟨sig, conf, ret⟩
      · exact Or.inl rfl
      · dsimp only
        by_cases hneu : conf ≤ cfg.NEUTRAL_CONFIDENCE_THRESHOLD ∨ |ret| < 0.0001
        · rw [if_pos hneu]; exact Or.inr rfl
        · rw [if_neg hneu, hpres, hstart]
          dsimp only
          rw [if_pos hwithin]
          exact Or.inl rfl

lemma get_signal_within_hold_quality (cfg : SignalConfig) (env : SignalEnv) (s0 : SymbolState)
    (t0 : ℚ) (sig : Option MLSig) (conf ret : ℚ)
    (hstart : s0.neutralStartTime = some t0)
    (hwithin : env.now - t0 < cfg.NEUTRAL_HOLD_DURATION)
    (hml : env.ml = some (sig, conf, ret))
    (hconf : ¬ conf ≤ cfg.NEUTRAL_CONFIDENCE_THRESHOLD)
    (hret : ¬ |ret| < 0.0001) :
    (get_signal cfg env s0).verdict = Verdict.noSignal := by
  obtain ⟨enow, erates, eml, econs⟩ := env
  dsimp only at hwithin hml
  subst hml
  have hpres := (Trading.should_trade_preserves cfg.MIN_WIN_RATE enow s0).1
  unfold get_signal
  dsimp only
  by_cases hst : (Trading.should_trade_symbol cfg.MIN_WIN_RATE enow s0).1 = false
  · rw [if_pos hst]
  · rw [if_neg hst]
    rcases erates with _ | current
    · rfl
    · dsimp only
      rw [if_neg (not_or.mpr ⟨hconf, hret⟩), hpres, hstart]
      dsimp only
      rw [if_pos hwithin]

/-- C3 (amended): a `neutral` verdict always records `neutralStartTime := now`;
a subsequent `get_signal` call within the hold duration never returns
`buy`/`sell` — it returns hold (the `(None, None, 0)` tuple) or, when the
fresh prediction again fails the neutral quality bar, `neutral`; whenever the
fresh prediction passes neutral detection, the call returns hold without
evaluating the anti-repetition / quality / fusion rules. -/
theorem C3_neutral_hold_behaviour (cfg : SignalConfig) (env : SignalEnv) (s0 : SymbolState)
    (t0 : ℚ) (hstart : s0.neutralStartTime = some t0)
    (hwithin : env.now - t0 < cfg.NEUTRAL_HOLD_DURATION) :
    (∀ cfg2 env2 s2, (get_signal cfg2 env2 s2).verdict = Verdict.neutral →
        (get_signal cfg2 env2 s2).state.neutralStartTime = some env2.now) ∧
      ((get_signal cfg env s0).verdict = Verdict.noSignal ∨
        (get_signal cfg env s0).verdict = Verdict.neutral) ∧
      (∀ sig conf ret, env.ml = some (sig, conf, ret) →
        ¬ conf ≤ cfg.NEUTRAL_CONFIDENCE_THRESHOLD → ¬ |ret| < 0.0001 →
        (get_signal cfg env s0).verdict = Verdict.noSignal) :=
  ⟨fun cfg2 env2 s2 h => get_signal_neutral_sets_start cfg2 env2 s2 h,
    get_signal_within_hold cfg env s0 t0 hstart hwithin,
    fun sig conf ret hml hconf hret =>
      get_signal_within_hold_quality cfg env s0 t0 sig conf ret hstart hwithin hml hconf hret⟩

/-- Configuration used by the concrete signal scenarios. -/
def cexCfg : SignalConfig :=
  { MIN_WIN_RATE := 0.4
    NEUTRAL_CONFIDENCE_THRESHOLD := 0.5
    NEUTRAL_HOLD_DURATION := 300
    taParams := { rsi_oversold := 30, rsi_overbought := 70 } }

/-- An indicator row used by the concrete signal scenarios. -/
def cexMarket : MarketData :=
  { ADX := 30, RSI := 50, close := 10, SMA_short := 9, SMA_long := 8, ATR := 2 }

/-- A state inside a neutral hold window that started at time `0`. -/
def c3CexState : SymbolState := { initState with neutralStartTime := some 0 }

/-- An environment at time `10` whose fresh prediction is again low-confidence
(`0.1` against the `0.5` threshold). -/
def c3CexEnv : SignalEnv :=
  { now := 10, rates := some cexMarket, ml := some (some MLSig.buy, 0.1, 1)
    conservative := false }

/-- C3 counterexample: inside an active neutral hold window (start `0`, call
at `10`, hold duration `300`) a low-confidence prediction makes `get_signal`
return `neutral` (re-recording the start time), not the claimed hold. -/
theorem C3_neutral_hold_counterexample :
    c3CexState.neutralStartTime = some 0 ∧
      c3CexEnv.now - 0 < cexCfg.NEUTRAL_HOLD_DURATION ∧
      (get_signal cexCfg c3CexEnv c3CexState).verdict = Verdict.neutral ∧
      Verdict.neutral ≠ Verdict.noSignal := by
  refine ⟨rfl, by norm_num [c3CexEnv, cexCfg], ?_, by simp⟩
  norm_num [get_signal, Trading.should_trade_symbol, Trading.should_trade_core,
    Trading.restricted_check, lastN, c3CexState, c3CexEnv, cexCfg, initState]

/-- An environment at time `10` whose fresh prediction is high-quality
(confidence `0.9`, predicted return `1`). -/
def c3WitEnv : SignalEnv :=
  { now := 10, rates := some cexMarket, ml := some (some MLSig.buy, 0.9, 1)
    conservative := false }

/-- Witness for C3: within the hold window a high-quality prediction still
yields hold. -/
theorem C3_neutral_hold_behaviour_witness :
    c3CexState.neutralStartTime = some 0 ∧
      c3WitEnv.now - 0 < cexCfg.NEUTRAL_HOLD_DURATION ∧
      (get_signal cexCfg c3WitEnv c3CexState).verdict = Verdict.noSignal :=
  ⟨rfl, by norm_num [c3WitEnv, cexCfg],
    (C3_neutral_hold_behaviour cexCfg c3WitEnv c3CexState 0 rfl
        (by norm_num [c3WitEnv, cexCfg])).2.2
      (some MLSig.buy) 0.9 1 rfl (by norm_num [cexCfg]) (by norm_num)⟩

/-- C4 (amended): when the ML-predicted direction already occurs at least
twice in `recentTradeDirections`, `get_signal` never returns `buy`/`sell` —
regardless of the trend score — but the outcome is hold only when the
prediction passes neutral detection; a low-confidence / negligible-return
prediction short-circuits earlier into `neutral`. -/
theorem C4_anti_repetition (cfg : SignalConfig) (env : SignalEnv) (s0 : SymbolState)
    (d : MLSig) (conf ret : ℚ)
    (hml : env.ml = some (some d, conf, ret))
    (hcnt : 2 ≤ dirCount s0.recentTradeDirections (some d)) :
    ((get_signal cfg env s0).verdict = Verdict.noSignal ∨
      (get_signal cfg env s0).verdict = Verdict.neutral) ∧
    (¬ conf ≤ cfg.NEUTRAL_CONFIDENCE_THRESHOLD → ¬ |ret| < 0.0001 →
      (get_signal cfg env s0).verdict = Verdict.noSignal) := by
  obtain ⟨enow, erates, eml, econs⟩ := env
  dsimp only at hml
  subst hml
  have hpres := (Trading.should_trade_preserves cfg.MIN_WIN_RATE enow s0).2
  unfold get_signal
  dsimp only
  by_cases hst : (Trading.should_trade_symbol cfg.MIN_WIN_RATE enow s0).1 = false
  · rw [if_pos hst]; exact ⟨Or.inl rfl, fun _ _ => rfl⟩
  · rw [if_neg hst]
    rcases erates with _ | current
    · exact ⟨Or.inl rfl, fun _ _ => rfl⟩
    · dsimp only
      by_cases hneu : conf ≤ cfg.NEUTRAL_CONFIDENCE_THRESHOLD ∨ |ret| < 0.0001
      · rw [if_pos hneu]
        exact ⟨Or.inr rfl, fun hconf hret => absurd hneu (not_or.mpr ⟨hconf, hret⟩)⟩
      · rw [if_neg hneu]
        rcases hnst : (Trading.should_trade_symbol cfg.MIN_WIN_RATE enow s0).2.neutralStartTime
          with _ | t0
        · dsimp only
          have hc2 : 2 ≤ dirCount
              (Trading.should_trade_symbol cfg.MIN_WIN_RATE enow s0).2.recentTradeDirections
              (some d) := by rw [hpres]; exact hcnt
          have h3 := get_signal_tail_repeated
            ⟨enow, some current, some (some d, conf, ret), econs⟩ current
            (calculate_trend_score cfg.taParams current) (some d) conf ret _ hc2
          exact ⟨Or.inl h3, fun _ _ => h3⟩
        · dsimp only
          by_cases hho : enow - t0 < cfg.NEUTRAL_HOLD_DURATION
          · rw [if_pos hho]; exact ⟨Or.inl rfl, fun _ _ => rfl⟩
          · rw [if_neg hho]
            have hc2 : 2 ≤ dirCount
                ({ (Trading.should_trade_symbol cfg.MIN_WIN_RATE enow s0).2 with
                    neutralStartTime := none }).recentTradeDirections (some d) := by
              show 2 ≤ dirCount
                (Trading.should_trade_symbol cfg.MIN_WIN_RATE enow s0).2.recentTradeDirections
                (some d)
              rw [hpres]; exact hcnt
            have h3 := get_signal_tail_repeated
              ⟨enow, some current, some (some d, conf, ret), econs⟩ current
              (calculate_trend_score cfg.taParams current) (some d) conf ret _ hc2
            exact ⟨Or.inl h3, fun _ _ => h3⟩

/-- A state that already traded `'buy'` twice (and is not in a neutral hold). -/
def c4CexState : SymbolState :=
  { initState with recentTradeDirections := [Dir.buy, Dir.buy] }

/-- C4 counterexample: with `'buy'` remembered twice, a low-confidence `'buy'`
prediction makes `get_signal` return `neutral`, not the claimed hold — the
anti-repetition verdict does depend on the prediction's confidence. -/
theorem C4_anti_repetition_counterexample :
    dirCount c4CexState.recentTradeDirections (some MLSig.buy) = 2 ∧
      (get_signal cexCfg c3CexEnv c4CexState).verdict = Verdict.neutral ∧
      Verdict.neutral ≠ Verdict.noSignal := by
  refine ⟨by decide, ?_, by simp⟩
  norm_num [get_signal, Trading.should_trade_symbol, Trading.should_trade_core,
    Trading.restricted_check, lastN, c4CexState, c3CexEnv, cexCfg, initState]

/-- Witness for C4: with `'buy'` remembered twice and a high-quality `'buy'`
prediction, `get_signal` returns hold. -/
theorem C4_anti_repetition_witness :
    c3WitEnv.ml = some (some MLSig.buy, 0.9, 1) ∧
      2 ≤ dirCount c4CexState.recentTradeDirections (some MLSig.buy) ∧
      (get_signal cexCfg c3WitEnv c4CexState).verdict = Verdict.noSignal :=
  ⟨rfl, by decide,
    (C4_anti_repetition cexCfg c3WitEnv c4CexState MLSig.buy 0.9 1 rfl (by decide)).2
      (by norm_num [cexCfg]) (by norm_num)⟩

/-- The side of a venue position (`mt5.ORDER_TYPE_BUY` / `ORDER_TYPE_SELL`). -/
inductive PosType
  | buy
  | sell
deriving DecidableEq

/-- A venue position as read by the engine (`mt5.positions_get`). -/
structure Position where
  ticket : ℕ
  ptype : PosType
  price_open : ℚ
  price_current : ℚ
  profit : ℚ
  sl : Option ℚ
  tp : ℚ
  volume : ℚ
  time : ℚ
deriving DecidableEq

/-- The trailing record kept per ticket in `PositionManager.trailing_stops`;
`float('inf')` / `float('-inf')` are modelled as `⊤` / `⊥`. -/
structure TrailingRec where
  highest_price : WithTop ℚ
  lowest_price : WithBot ℚ
deriving DecidableEq

/-- The record created on first sight of a ticket
(`position_manager.py` lines 144-156). -/
def initTrailingRec (p : Position) : TrailingRec :=
  { highest_price := if p.ptype = PosType.buy then (p.price_current : WithTop ℚ) else ⊤
    lowest_price := if p.ptype = PosType.sell then (p.price_current : WithBot ℚ) else ⊥ }

/-- `PositionManager._manage_trailing_stop` (`position_manager.py` lines
158-202), reduced to its decision core: given the current price and the
5-pip distance, return the stop-loss submitted to `_modify_stop_loss` (if
any) and the updated trailing record.  For a long position the stop is only
submitted when the price made a new high and the candidate is strictly above
the existing stop (`new_sl > position.sl`); symmetric for short. -/
def manage_trailing_stop (p : Position) (current_price min_stop_distance : ℚ)
    (tr : TrailingRec) : Option ℚ × TrailingRec :=
  if p.profit > 0 then
    match p.ptype with
    | PosType.buy =>
      if (current_price : WithTop ℚ) > tr.highest_price then
        let tr2 := { tr with highest_price := (current_price : WithTop ℚ) }
        let new_sl := current_price - min_stop_distance
        if (match p.sl with | none => true | some sl0 => decide (new_sl > sl0)) then
          (some new_sl, tr2)
        else (none, tr2)
      else (none, tr)
    | PosType.sell =>
      if (current_price : WithBot ℚ) < tr.lowest_price then
        let tr2 := { tr with lowest_price := (current_price : WithBot ℚ) }
        let new_sl := current_price + min_stop_distance
        if (match p.sl with | none => true | some sl0 => decide (new_sl < sl0)) then
          (some new_sl, tr2)
        else (none, tr2)
      else (none, tr)
  else (none, tr)

/-- `modify_stop_loss(position)` from `trading.py` (lines 555-567): the stop
level submitted to the venue — the entry price when the position is losing,
the unchanged existing stop otherwise.  No comparison against the existing
stop is performed. -/
def modify_stop_loss_sl (p : Position) : Option ℚ :=
  if p.profit < 0 then some p.price_open else p.sl

/-- C2 (amended): every stop-loss submitted by the trailing-stop manager is
strictly favorable (above the existing stop for a long, below it for a
short); `modify_stop_loss` is favorable provided the existing stop is not
already beyond the entry price in the favorable direction (for a long,
`sl ≤ price_open`; symmetric for short). -/
theorem C2_stop_loss_monotonic :
    (∀ (p : Position) (cp dist : ℚ) (tr : TrailingRec) (n s : ℚ),
        (manage_trailing_stop p cp dist tr).1 = some n → p.sl = some s →
        (p.ptype = PosType.buy → s < n) ∧ (p.ptype = PosType.sell → n < s)) ∧
      (∀ (p : Position) (n s : ℚ),
        modify_stop_loss_sl p = some n → p.sl = some s →
        (p.ptype = PosType.buy → s ≤ p.price_open → s ≤ n) ∧
        (p.ptype = PosType.sell → p.price_open ≤ s → n ≤ s)) := by
  constructor
  · intro p cp dist tr n s hsub hsl
    obtain ⟨tk, pt, po, pc, pr, sl, tpx, vol, tm⟩ := p
    dsimp only at hsl hsub ⊢
    subst hsl
    unfold manage_trailing_stop at hsub
    dsimp only at hsub
    cases pt <;> (repeat' split at hsub) <;> simp_all
  · intro p n s h hsl
    obtain ⟨tk, pt, po, pc, pr, sl, tpx, vol, tm⟩ := p
    dsimp only at h hsl ⊢
    subst hsl
    unfold modify_stop_loss_sl at h
    dsimp only at h
    split at h <;> cases pt <;> simp_all

/-- The losing long position with an already-favorable stop used against C2. -/
def c2CexPos : Position :=
  { ticket := 1, ptype := PosType.buy, price_open := 100, price_current := 99
    profit := -1, sl := some 105, tp := 120, volume := 1, time := 0 }

/-- C2 counterexample: for a losing long whose stop was already trailed above
the entry (`sl = 105 > 100 = price_open`), `modify_stop_loss` submits the
entry price `100`, which is lower than the existing stop. -/
theorem C2_stop_loss_monotonic_counterexample :
    c2CexPos.ptype = PosType.buy ∧ c2CexPos.sl = some 105 ∧
      modify_stop_loss_sl c2CexPos = some 100 ∧ (100 : ℚ) < 105 := by
  refine ⟨rfl, rfl, ?_, by norm_num⟩
  norm_num [modify_stop_loss_sl, c2CexPos]

/-- A profitable long position with stop `100` used by the C2 witness. -/
def c2WitPos : Position :=
  { ticket := 2, ptype := PosType.buy, price_open := 100, price_current := 110
    profit := 1, sl := some 100, tp := 120, volume := 1, time := 0 }

/-- A trailing record whose high-water mark `105` is below the current price. -/
def c2WitRec : TrailingRec := { highest_price := (105 : ℚ), lowest_price := (95 : ℚ) }

/-- A losing long position with stop `95` below entry used by the C2 witness. -/
def c2WitPos2 : Position :=
  { ticket := 3, ptype := PosType.buy, price_open := 100, price_current := 98
    profit := -1, sl := some 95, tp := 120, volume := 1, time := 0 }

/-- Witness for C2: the trailing stop moves a long stop from `100` up to
`219/2`, and `modify_stop_loss` moves a not-yet-favorable stop `95` up to the
entry `100`. -/
theorem C2_stop_loss_monotonic_witness :
    (100 : ℚ) < 219 / 2 ∧ (95 : ℚ) ≤ 100 :=
  ⟨(C2_stop_loss_monotonic.1 c2WitPos 110 (1 / 2) c2WitRec (219 / 2) 100
      (by
        have h : c2WitRec.highest_price < ((110 : ℚ) : WithTop ℚ) := by
          show ((105 : ℚ) : WithTop ℚ) < _
          rw [WithTop.coe_lt_coe]
          norm_num
        unfold manage_trailing_stop c2WitPos
        dsimp only
        rw [if_pos (by norm_num : (1 : ℚ) > 0), if_pos h]
        norm_num) rfl).1 rfl,
    (C2_stop_loss_monotonic.2 c2WitPos2 100 95
      (by norm_num [modify_stop_loss_sl, c2WitPos2]) rfl).1 rfl (by norm_num [c2WitPos2])⟩

/-- The five per-position checks run by `PositionManager.manage_open_positions`
(`position_manager.py` lines 26-31), in source order. -/
inductive Check
  | ageCheck
  | lossCheck
  | trailCheck
  | reversalCheck
  | scaleCheck
deriving DecidableEq

/-- A side effect requested from the venue / risk engine by one check. -/
inductive PMAction
  | closeReq
  | adjustRisk (profit : ℚ)
  | slReq (new_sl : ℚ)
  | openReq (d : PosType) (v : ℚ)
  | scaleReq (addVolume : ℚ)
deriving DecidableEq

/-- One venue-visible action, tagged with the check that produced it. -/
structure PMEvent where
  check : Check
  act : PMAction
deriving DecidableEq

/-- The venue symbol constraints (`mt5.symbol_info`). -/
structure SymbolInfoPM where
  digits : ℕ
  volume_min : ℚ
  volume_max : ℚ
  volume_step : ℚ
deriving DecidableEq

/-- The external answers consumed by one pass of the position manager over one
position: the clock, the quote, the symbol constraints and the venue's
accept/reject responses to the close requests. -/
structure PMOracle where
  now : ℚ
  tick : Option (ℚ × ℚ)
  symbolInfo : Option SymbolInfoPM
  ageCloseOk : Bool
  lossCloseOk : Bool
  revCloseOk : Bool
  revAtr : Option ℚ
deriving DecidableEq

/-- `PositionManager._check_position_age` (lines 241-251): close a position
older than 30 seconds whose profit is negative. -/
def check_position_age (p : Position) (o : PMOracle) : List PMEvent :=
  if o.now - p.time ≥ 30 ∧ p.profit < 0 then [⟨Check.ageCheck, PMAction.closeReq⟩] else []

/-- `PositionManager._manage_position_profit` (lines 253-264): hard-loss exit
at `-15.80`; on an accepted close the outcome is fed to the risk engine. -/
def manage_position_profit (p : Position) (o : PMOracle) : List PMEvent :=
  if p.profit ≤ -15.80 then
    ⟨Check.lossCheck, PMAction.closeReq⟩ ::
      (if o.lossCloseOk then [⟨Check.lossCheck, PMAction.adjustRisk p.profit⟩] else [])
  else []

/-- `PositionManager._manage_trailing_stop` as invoked from the loop: resolve
the quote side, look up or create the trailing record, compute the 5-pip
distance from the symbol digits, and emit the stop-loss modification chosen by
`manage_trailing_stop` (if any). -/
def pm_trailing_events (p : Position) (o : PMOracle) (tr0 : Option TrailingRec) :
    List PMEvent :=
  match o.tick with
  | none => []
  | some (bid, ask) =>
    let current_price := if p.ptype = PosType.buy then bid else ask
    let tr := tr0.getD (initTrailingRec p)
    if p.profit > 0 then
      match o.symbolInfo with
      | none => []
      | some si =>
        let min_stop_distance := (10 : ℚ) ^ (-(si.digits : ℤ)) * 5
        match (manage_trailing_stop p current_price min_stop_distance tr).1 with
        | some n => [⟨Check.trailCheck, PMAction.slReq n⟩]
        | none => []
    else []

/-- `PositionManager._check_reversal_conditions` (lines 266-288): when profit
is at or below the reversal threshold, request a close; if the venue accepts
and volatility data is available, open the opposite direction with
`state.volume * 0.75`. -/
def check_reversal_conditions (REV_THRESHOLD : ℚ) (p : Position) (o : PMOracle)
    (stateVolume : ℚ) : List PMEvent :=
  if p.profit ≤ REV_THRESHOLD then
    ⟨Check.reversalCheck, PMAction.closeReq⟩ ::
      (if o.revCloseOk then
        match o.revAtr with
        | some _ =>
          [⟨Check.reversalCheck,
            PMAction.openReq (if p.ptype = PosType.buy then PosType.sell else PosType.buy)
              (stateVolume * 0.75)⟩]
        | none => []
      else [])
  else []

/-- Python `round()`: round half to even. -/
def pyRound (q : ℚ) : ℤ :=
  let f := ⌊q⌋
  let frac := q - (f : ℚ)
  if frac < 1 / 2 then f
  else if 1 / 2 < frac then f + 1
  else if Even f then f else f + 1

/-- `PositionManager._scale_profitable_position` (lines 33-127): pick the
highest applicable scaling tier by profit percentage, clamp and round the new
volume, and skip when the change is below one volume step. -/
def scale_profitable_position (p : Position) (o : PMOracle) : List PMEvent :=
  if p.profit ≤ 0 then []
  else
    let profit_percent := p.profit / (p.price_open * p.volume) * 100
    match o.tick with
    | none => []
    | some _ =>
      match o.symbolInfo with
      | none => []
      | some si =>
        let rule : Option ℚ :=
          if profit_percent ≥ 1.5 then some 1.5
          else if profit_percent ≥ 0.7 then some 1.0
          else if profit_percent ≥ 0.3 then some 0.5
          else none
        match rule with
        | none => []
        | some mult =>
          let volume_increase := p.volume * mult
          let new_volume0 := p.volume + volume_increase
          let new_volume1 := min new_volume0 si.volume_max
          let new_volume2 := max new_volume1 si.volume_min
          let new_volume := (pyRound (new_volume2 / si.volume_step) : ℚ) * si.volume_step
          if |new_volume - p.volume| < si.volume_step then []
          else [⟨Check.scaleCheck, PMAction.scaleReq volume_increase⟩]

/-- The per-position body of `PositionManager.manage_open_positions`
(lines 26-31): the five checks run unconditionally, in source order, with no
short-circuit between them. -/
def pm_manage_one (REV_THRESHOLD : ℚ) (p : Position) (o : PMOracle)
    (tr0 : Option TrailingRec) (stateVolume : ℚ) : List PMEvent :=
  check_position_age p o ++ manage_position_profit p o ++ pm_trailing_events p o tr0 ++
    check_reversal_conditions REV_THRESHOLD p o stateVolume ++
    scale_profitable_position p o

lemma age_tags (p : Position) (o : PMOracle) :
    ((check_position_age p o).map PMEvent.check).Sublist [Check.ageCheck] := by
  unfold check_position_age
  split <;> simp

lemma loss_tags (p : Position) (o : PMOracle) :
    ((manage_position_profit p o).map PMEvent.check).Sublist
      [Check.lossCheck, Check.lossCheck] := by
  unfold manage_position_profit
  split
  · split <;> simp
  · simp

lemma match_opt_tags (x : Option ℚ) :
    ((match x with
        | some n => [(⟨Check.trailCheck, PMAction.slReq n⟩ : PMEvent)]
        | none => []).map PMEvent.check).Sublist [Check.trailCheck] := by
  rcases x with _ | n <;> simp

lemma trail_tags (p : Position) (o : PMOracle) (tr0 : Option TrailingRec) :
    ((pm_trailing_events p o tr0).map PMEvent.check).Sublist [Check.trailCheck] := by
  unfold pm_trailing_events
  (repeat' split) <;> first | exact match_opt_tags _ | simp

lemma reversal_tags (REV : ℚ) (p : Position) (o : PMOracle) (v : ℚ) :
    ((check_reversal_conditions REV p o v).map PMEvent.check).Sublist
      [Check.reversalCheck, Check.reversalCheck] := by
  unfold check_reversal_conditions
  (repeat' split) <;> simp

lemma scale_tags (p : Position) (o : PMOracle) :
    ((scale_profitable_position p o).map PMEvent.check).Sublist [Check.scaleCheck] := by
  unfold scale_profitable_position
  split
  · simp
  · split
    · simp
    · split
      · simp
      · dsimp only
        by_cases h15 : p.profit / (p.price_open * p.volume) * 100 ≥ 1.5
        · rw [if_pos h15]
          dsimp only
          split <;> simp
        · rw [if_neg h15]
          by_cases h07 : p.profit / (p.price_open * p.volume) * 100 ≥ 0.7
          · rw [if_pos h07]
            dsimp only
            split <;> simp
          · rw [if_neg h07]
            by_cases h03 : p.profit / (p.price_open * p.volume) * 100 ≥ 0.3
            · rw [if_pos h03]
              dsimp only
              split <;> simp
            · rw [if_neg h03]
              simp

/-- C5 (amended): the position manager applies its checks in the fixed source
order — age exit, hard-loss exit, trailing stop, reversal, scale-up — but a
close by an earlier check does NOT short-circuit the remaining checks for
that position: when both the age exit and the reversal condition hold, the
reversal close request is still emitted after the age close request. -/
theorem C5_check_order_no_short_circuit (REV : ℚ) (p : Position) (o : PMOracle)
    (tr0 : Option TrailingRec) (v : ℚ)
    (hage : o.now - p.time ≥ 30 ∧ p.profit < 0) (hrev : p.profit ≤ REV) :
    ((pm_manage_one REV p o tr0 v).map PMEvent.check).Sublist
        [Check.ageCheck, Check.lossCheck, Check.lossCheck, Check.trailCheck,
          Check.reversalCheck, Check.reversalCheck, Check.scaleCheck] ∧
      ⟨Check.ageCheck, PMAction.closeReq⟩ ∈ pm_manage_one REV p o tr0 v ∧
      ⟨Check.reversalCheck, PMAction.closeReq⟩ ∈ pm_manage_one REV p o tr0 v := by
  refine ⟨?_, ?_, ?_⟩
  · unfold pm_manage_one
    simp only [List.map_append]
    exact ((((age_tags p o).append (loss_tags p o)).append (trail_tags p o tr0)).append
      (reversal_tags REV p o v)).append (scale_tags p o)
  · unfold pm_manage_one check_position_age
    rw [if_pos hage]
    simp
  · unfold pm_manage_one check_reversal_conditions
    rw [if_pos hrev]
    simp

/-- A 40-second-old long position with profit `-50`: it satisfies the age
exit, the hard-loss exit and the reversal condition at once. -/
def c5CexPos : Position :=
  { ticket := 7, ptype := PosType.buy, price_open := 100, price_current := 95
    profit := -50, sl := some 90, tp := 120, volume := 1, time := 0 }

/-- An oracle that accepts every close and has market data available. -/
def c5CexOracle : PMOracle :=
  { now := 40, tick := some (95, 96)
    symbolInfo := some { digits := 2, volume_min := 0.01, volume_max := 100, volume_step := 0.01 }
    ageCloseOk := true, lossCloseOk := true, revCloseOk := true, revAtr := some 2 }

/-- C5 counterexample: for a position matching the age exit, the hard-loss
exit and the reversal threshold at once, the manager emits the age close, the
hard-loss close (and risk update), the reversal close and the reversal open —
the checks after the first close are NOT skipped, and the reversal runs before
scale-up, not after it. -/
theorem C5_check_order_no_short_circuit_counterexample :
    pm_manage_one (-20) c5CexPos c5CexOracle none 1 =
      [⟨Check.ageCheck, PMAction.closeReq⟩, ⟨Check.lossCheck, PMAction.closeReq⟩,
        ⟨Check.lossCheck, PMAction.adjustRisk (-50)⟩,
        ⟨Check.reversalCheck, PMAction.closeReq⟩,
        ⟨Check.reversalCheck, PMAction.openReq PosType.sell (3 / 4)⟩] := by
  norm_num [pm_manage_one, check_position_age, manage_position_profit, pm_trailing_events,
    check_reversal_conditions, scale_profitable_position, c5CexPos, c5CexOracle]

/-- Witness for C5 on the concrete position: both the age close request and
the subsequent reversal close request are emitted in the same pass. -/
theorem C5_check_order_no_short_circuit_witness :
    (c5CexOracle.now - c5CexPos.time ≥ 30 ∧ c5CexPos.profit < 0) ∧
      c5CexPos.profit ≤ -20 ∧
      (⟨Check.ageCheck, PMAction.closeReq⟩ : PMEvent) ∈
        pm_manage_one (-20) c5CexPos c5CexOracle none 1 ∧
      (⟨Check.reversalCheck, PMAction.closeReq⟩ : PMEvent) ∈
        pm_manage_one (-20) c5CexPos c5CexOracle none 1 :=
  ⟨⟨by norm_num [c5CexOracle, c5CexPos], by norm_num [c5CexPos]⟩,
    by norm_num [c5CexPos],
    (C5_check_order_no_short_circuit (-20) c5CexPos c5CexOracle none 1
        ⟨by norm_num [c5CexOracle, c5CexPos], by norm_num [c5CexPos]⟩
        (by norm_num [c5CexPos])).2.1,
    (C5_check_order_no_short_circuit (-20) c5CexPos c5CexOracle none 1
        ⟨by norm_num [c5CexOracle, c5CexPos], by norm_num [c5CexPos]⟩
        (by norm_num [c5CexPos])).2.2⟩

/-- An order-path request submitted to the venue by `trading.py`:
a position close (`close_position`) or an `order_send` deal request. -/
inductive TEvent
  | closeSend (ticket : ℕ)
  | orderSend (d : PosType) (volume price sl tp : ℚ)
deriving DecidableEq

/-- The volume carried by an `order_send` request, if the event is one. -/
def TEvent.sendVolume : TEvent → Option ℚ
  | TEvent.orderSend _ v _ _ _ => some v
  | _ => none

/-- A live quote (`mt5.symbol_info_tick`). -/
structure Tick where
  bid : ℚ
  ask : ℚ
deriving DecidableEq

/-- The volume constraints of `mt5.symbol_info` used by `place_order`. -/
structure SymbolInfoT where
  volume_min : ℚ
  volume_max : ℚ
deriving DecidableEq

/-- The venue answers consumed by one `place_order` call: symbol info, the
quote, whether the mid-function rates fetch succeeds, and the two
`order_send` results (`none` = the call returned `None`, `some b` = a result
whose retcode is DONE iff `b`). -/
structure OrderEnv where
  symbolInfo : Option SymbolInfoT
  tick : Option Tick
  rates2 : Bool
  send1 : Option Bool
  send2 : Option Bool
deriving DecidableEq

/-- What `place_order` evaluates to in the caller: `False`, `True`, the stray
`(None, None, 0)` tuple returned when the mid-function rates fetch fails
(line 396 of `trading.py`), or a raised `TypeError` (`atr * 5` with
`atr = None`). -/
inductive PlaceOutcome
  | retFalse
  | retTuple
  | retTrue
  | raised
deriving DecidableEq

/-- `volume = max(symbol_info.volume_min, min(volume, symbol_info.volume_max))`
(`trading.py` line 355). -/
def po_clamp (si : SymbolInfoT) (v : ℚ) : ℚ :=
  max si.volume_min (min v si.volume_max)

/-- The order price per side (`tick.ask` for buy, `tick.bid` for sell). -/
def po_price (d : PosType) (tk : Tick) : ℚ :=
  if d = PosType.buy then tk.ask else tk.bid

/-- Stop loss at `5 * ATR` on the unfavorable side. -/
def po_sl (d : PosType) (tk : Tick) (a : ℚ) : ℚ :=
  if d = PosType.buy then po_price d tk - a * 5 else po_price d tk + a * 5

/-- Take profit at `2.5 * ATR` on the favorable side. -/
def po_tp (d : PosType) (tk : Tick) (a : ℚ) : ℚ :=
  if d = PosType.buy then po_price d tk + a * 2.5 else po_price d tk - a * 2.5

/-- `place_order(symbol, direction, atr, volume, ...)` from `trading.py`
(lines 341-437): missing symbol info or quote return `False`; the volume is
clamped into the symbol bounds; a `None` atr raises; a failed mid-function
rates fetch returns the `(None, None, 0)` tuple before any send; otherwise
the FOK request is sent, retried once with IOC on a non-DONE retcode. -/
def place_order (env : OrderEnv) (direction : PosType) (atr : Option ℚ) (volume : ℚ) :
    PlaceOutcome × List TEvent :=
  match env.symbolInfo with
  | none => (PlaceOutcome.retFalse, [])
  | some si =>
    match env.tick with
    | none => (PlaceOutcome.retFalse, [])
    | some tk =>
      let v := po_clamp si volume
      match atr with
      | none => (PlaceOutcome.raised, [])
      | some a =>
        let req := TEvent.orderSend direction v (po_price direction tk)
          (po_sl direction tk a) (po_tp direction tk a)
        if env.rates2 = false then (PlaceOutcome.retTuple, [])
        else
          match env.send1 with
          | none => (PlaceOutcome.retFalse, [req])
          | some rc1 =>
            if rc1 then (PlaceOutcome.retTrue, [req])
            else
              match env.send2 with
              | none => (PlaceOutcome.retFalse, [req, req])
              | some rc2 =>
                if rc2 then (PlaceOutcome.retTrue, [req, req])
                else (PlaceOutcome.retFalse, [req, req])

/-- The result of one pass of `manage_open_positions` (`trading.py`) over one
position: the venue requests, the updated symbol state, and whether the pass
raised (propagating out of the loop body). -/
structure TPOut where
  events : List TEvent
  state : SymbolState
  raised : Bool
deriving DecidableEq

/-- The non-reversal close conditions of `manage_open_positions`
(`trading.py` lines 322-338): age exit at 30 seconds with negative profit,
else the `-15.80` hard-loss exit; an accepted close feeds the risk engine. -/
def tp_age_loss_checks (B mpt now : ℚ) (p : Position) (ageCloseOk lossCloseOk : Bool)
    (s : SymbolState) : TPOut :=
  if now - p.time ≥ 30 then
    if p.profit < 0 then
      if ageCloseOk then
        ⟨[TEvent.closeSend p.ticket], Trading.adjust_trading_parameters B mpt s p.profit, false⟩
      else ⟨[TEvent.closeSend p.ticket], s, false⟩
    else ⟨[], s, false⟩
  else
    if p.profit ≤ -15.80 then
      if lossCloseOk then
        ⟨[TEvent.closeSend p.ticket], Trading.adjust_trading_parameters B mpt s p.profit, false⟩
      else ⟨[TEvent.closeSend p.ticket], s, false⟩
    else ⟨[], s, false⟩

/-- `"sell" if position.type == mt5.ORDER_TYPE_BUY else "buy"`. -/
def reversal_direction (p : Position) : PosType :=
  if p.ptype = PosType.buy then PosType.sell else PosType.buy

/-- The body of `manage_open_positions` (`trading.py` lines 282-338) for one
position: at or below the reversal threshold, attempt the close; on success,
place the opposite order with `state.volume * 1.5`, feed the loss to the risk
engine and `continue`; on a failed close fall through to the age / hard-loss
checks. -/
def tp_manage_one (B mpt REV now : ℚ) (p : Position) (revCloseOk : Bool)
    (atr : Option ℚ) (oenv : OrderEnv) (ageCloseOk lossCloseOk : Bool)
    (s : SymbolState) : TPOut :=
  if p.profit ≤ REV then
    if revCloseOk then
      let po := place_order oenv (reversal_direction p) atr (s.volume * 1.5)
      match po.1 with
      | PlaceOutcome.raised => ⟨TEvent.closeSend p.ticket :: po.2, s, true⟩
      | _ => ⟨TEvent.closeSend p.ticket :: po.2,
          Trading.adjust_trading_parameters B mpt s p.profit, false⟩
    else
      let rest := tp_age_loss_checks B mpt now p ageCloseOk lossCloseOk s
      ⟨TEvent.closeSend p.ticket :: rest.events, rest.state, rest.raised⟩
  else tp_age_loss_checks B mpt now p ageCloseOk lossCloseOk s

lemma place_order_volume_bounds (env : OrderEnv) (d : PosType) (atr : Option ℚ) (vol : ℚ)
    (si : SymbolInfoT) (hsym : env.symbolInfo = some si)
    (hle : si.volume_min ≤ si.volume_max) :
    ∀ ev ∈ (place_order env d atr vol).2, ∀ w, ev.sendVolume = some w →
      si.volume_min ≤ w ∧ w ≤ si.volume_max := by
  obtain ⟨esym, etick, erat, es1, es2⟩ := env
  dsimp only at hsym
  subst hsym
  have hlo : si.volume_min ≤ po_clamp si vol := le_max_left _ _
  have hhi : po_clamp si vol ≤ si.volume_max := max_le hle (min_le_right _ _)
  unfold place_order
  dsimp only
  rcases etick with _ | tk
  · intro ev hev; simp at hev
  · dsimp only
    rcases atr with _ | a
    · intro ev hev; simp at hev
    · dsimp only
      (repeat' split) <;> intro ev hev <;> simp at hev <;>
        (try subst hev) <;>
        intro w hw <;> simp [TEvent.sendVolume] at hw <;> subst hw <;> exact ⟨hlo, hhi⟩

/-- C6 (amended): when a position's profit is at or below the reversal
threshold AND the venue accepts the close AND market data is available AND the
first order attempt is accepted, the engine submits exactly one close followed
by exactly one opposite-direction open whose volume is `state.volume * 1.5`
clamped into the instrument bounds; moreover every volume `place_order` ever
submits lies within `[volume_min, volume_max]`. -/
theorem C6_reversal_close_open_bounds (B mpt REV now : ℚ) (p : Position) (a : ℚ)
    (oenv : OrderEnv) (si : SymbolInfoT) (tk : Tick) (ageOk lossOk : Bool) (s : SymbolState)
    (hprofit : p.profit ≤ REV) (hsym : oenv.symbolInfo = some si)
    (htick : oenv.tick = some tk) (hrat : oenv.rates2 = true)
    (hs1 : oenv.send1 = some true) (hle : si.volume_min ≤ si.volume_max) :
    (tp_manage_one B mpt REV now p true (some a) oenv ageOk lossOk s).events =
        [TEvent.closeSend p.ticket,
          TEvent.orderSend (reversal_direction p) (po_clamp si (s.volume * 1.5))
            (po_price (reversal_direction p) tk) (po_sl (reversal_direction p) tk a)
            (po_tp (reversal_direction p) tk a)] ∧
      si.volume_min ≤ po_clamp si (s.volume * 1.5) ∧
      po_clamp si (s.volume * 1.5) ≤ si.volume_max ∧
      (tp_manage_one B mpt REV now p true (some a) oenv ageOk lossOk s).raised = false ∧
      (∀ (env2 : OrderEnv) (d : PosType) (atr2 : Option ℚ) (vol : ℚ) (si2 : SymbolInfoT),
        env2.symbolInfo = some si2 → si2.volume_min ≤ si2.volume_max →
        ∀ ev ∈ (place_order env2 d atr2 vol).2, ∀ w, ev.sendVolume = some w →
          si2.volume_min ≤ w ∧ w ≤ si2.volume_max) := by
  obtain ⟨esym, etick, erat, es1, es2⟩ := oenv
  dsimp only at hsym htick hrat hs1
  subst hsym
  subst htick
  subst hrat
  subst hs1
  refine ⟨?_, le_max_left _ _, max_le hle (min_le_right _ _), ?_,
    fun env2 d atr2 vol si2 h1 h2 => place_order_volume_bounds env2 d atr2 vol si2 h1 h2⟩
  · unfold tp_manage_one place_order
    rw [if_pos hprofit]
    norm_num
  · unfold tp_manage_one place_order
    rw [if_pos hprofit]
    norm_num

/-- A long position at profit `-25`, below the reversal threshold `-20`. -/
def c6CexPos : Position :=
  { ticket := 9, ptype := PosType.buy, price_open := 100, price_current := 95
    profit := -25, sl := some 90, tp := 120, volume := 1, time := 0 }

/-- A venue environment whose order path fully succeeds. -/
def c6OrderEnv : OrderEnv :=
  { symbolInfo := some { volume_min := 0.01, volume_max := 100 }
    tick := some { bid := 10, ask := 11 }, rates2 := true
    send1 := some true, send2 := none }

/-- C6 counterexample: profit `-25` is at or below the reversal threshold
`-20`, but when the venue rejects the close the engine submits NO open at all
— instead the age check fires a second close request — so the reversal does
not always produce exactly one close followed by exactly one open. -/
theorem C6_reversal_close_open_bounds_counterexample :
    c6CexPos.profit ≤ (-20 : ℚ) ∧
      (tp_manage_one 1 1 (-20) 40 c6CexPos false (some 2) c6OrderEnv true true
          initState).events = [TEvent.closeSend 9, TEvent.closeSend 9] ∧
      ∀ ev ∈ (tp_manage_one 1 1 (-20) 40 c6CexPos false (some 2) c6OrderEnv true true
          initState).events, TEvent.sendVolume ev = none := by
  have hev : (tp_manage_one 1 1 (-20) 40 c6CexPos false (some 2) c6OrderEnv true true
      initState).events = [TEvent.closeSend 9, TEvent.closeSend 9] := by
    norm_num [tp_manage_one, tp_age_loss_checks, c6CexPos, c6OrderEnv]
  refine ⟨by norm_num [c6CexPos], hev, ?_⟩
  intro ev hmem
  rw [hev] at hmem
  simp at hmem
  subst hmem
  rfl

/-- Witness for C6: with the close accepted and the order path succeeding, the
engine emits the close followed by the clamped opposite-direction open. -/
theorem C6_reversal_close_open_bounds_witness :
    c6CexPos.profit ≤ (-20 : ℚ) ∧
      (tp_manage_one 1 1 (-20) 40 c6CexPos true (some 2) c6OrderEnv true true
          initState).events =
        [TEvent.closeSend c6CexPos.ticket,
          TEvent.orderSend (reversal_direction c6CexPos)
            (po_clamp { volume_min := 0.01, volume_max := 100 } (initState.volume * 1.5))
            (po_price (reversal_direction c6CexPos) { bid := 10, ask := 11 })
            (po_sl (reversal_direction c6CexPos) { bid := 10, ask := 11 } 2)
            (po_tp (reversal_direction c6CexPos) { bid := 10, ask := 11 } 2)] :=
  ⟨by norm_num [c6CexPos],
    (C6_reversal_close_open_bounds 1 1 (-20) 40 c6CexPos 2 c6OrderEnv
        { volume_min := 0.01, volume_max := 100 } { bid := 10, ask := 11 } true true initState
        (by norm_num [c6CexPos]) rfl rfl rfl rfl (by norm_num)).1⟩

namespace Trading

/-- The post-order bookkeeping of `symbol_trader` in `trading.py` (lines
473-482): a truthy `place_order` result records `lastTradeTime`; a falsy one
increments `consecutive_losses` and restricts the symbol at the configured
maximum.  The counter is NOT touched on success. -/
def record_fill (MAX_CONSECUTIVE_LOSSES : ℤ) (now : ℚ) (success : Bool)
    (s : SymbolState) : SymbolState :=
  if success then { s with lastTradeTime := some now }
  else
    let s1 := { s with consecutiveLosses := s.consecutiveLosses + 1 }
    if s1.consecutiveLosses ≥ MAX_CONSECUTIVE_LOSSES then { s1 with isRestricted := true }
    else s1

end Trading

namespace Trading2

/-- The post-order bookkeeping of `symbol_trader` in `trading_2.py` (lines
456-466): success records `lastTradeTime` and decrements the loss counter
with `max(0, c - 1)`; failure increments it and restricts at the maximum. -/
def record_fill (MAX_CONSECUTIVE_LOSSES : ℤ) (now : ℚ) (success : Bool)
    (s : SymbolState) : SymbolState :=
  if success then
    { s with lastTradeTime := some now
             consecutiveLosses := max 0 (s.consecutiveLosses - 1) }
  else
    let s1 := { s with consecutiveLosses := s.consecutiveLosses + 1 }
    if s1.consecutiveLosses ≥ MAX_CONSECUTIVE_LOSSES then { s1 with isRestricted := true }
    else s1

end Trading2

/-- C8 (amended): in both controller loops the loss counter never drops below
zero and a failed fill increments it, restricting the symbol when the counter
reaches the configured maximum; a successful fill records `lastTradeTime` in
both loops, but only the `trading_2.py` loop moves the counter toward zero
(floored at zero) — the `trading.py` loop leaves it unchanged on success. -/
theorem C8_consecutive_losses (M : ℤ) (now : ℚ) (b : Bool) (s : SymbolState)
    (hnn : 0 ≤ s.consecutiveLosses) :
    (0 ≤ (Trading.record_fill M now b s).consecutiveLosses ∧
        0 ≤ (Trading2.record_fill M now b s).consecutiveLosses) ∧
      ((Trading.record_fill M now true s).lastTradeTime = some now ∧
        (Trading2.record_fill M now true s).lastTradeTime = some now) ∧
      ((Trading2.record_fill M now true s).consecutiveLosses ≤ s.consecutiveLosses ∧
        (0 < s.consecutiveLosses →
          (Trading2.record_fill M now true s).consecutiveLosses < s.consecutiveLosses)) ∧
      (Trading.record_fill M now true s).consecutiveLosses = s.consecutiveLosses ∧
      ((Trading.record_fill M now false s).consecutiveLosses = s.consecutiveLosses + 1 ∧
        (s.consecutiveLosses + 1 ≥ M →
          (Trading.record_fill M now false s).isRestricted = true) ∧
        (Trading2.record_fill M now false s).consecutiveLosses = s.consecutiveLosses + 1 ∧
        (s.consecutiveLosses + 1 ≥ M →
          (Trading2.record_fill M now false s).isRestricted = true)) := by
  unfold Trading.record_fill Trading2.record_fill
  dsimp only
  refine ⟨⟨?_, ?_⟩, ⟨by simp, by simp⟩, ⟨?_, ?_⟩, by simp, ?_, ?_, ?_, ?_⟩ <;>
    cases b <;> (repeat' split) <;> simp_all <;> omega

/-- The state with three consecutive losses used against C8. -/
def c8CexState : SymbolState := { initState with consecutiveLosses := 3 }

/-- C8 counterexample: in the `trading.py` loop a successful fill leaves the
loss counter at `3` — it is not moved toward zero, contrary to the claim that
every successful fill resets part of the loss streak. -/
theorem C8_consecutive_losses_counterexample :
    c8CexState.consecutiveLosses = 3 ∧
      (Trading.record_fill 4 100 true c8CexState).consecutiveLosses = 3 ∧
      ¬ (Trading.record_fill 4 100 true c8CexState).consecutiveLosses <
          c8CexState.consecutiveLosses := by
  refine ⟨rfl, ?_, ?_⟩ <;> simp [Trading.record_fill, c8CexState]

/-- Witness for C8 at `M = 2`, a failed fill on the three-loss state: the
counter rises to `4` and the symbol is restricted. -/
theorem C8_consecutive_losses_witness :
    (0 : ℤ) ≤ c8CexState.consecutiveLosses ∧
      (Trading.record_fill 2 100 false c8CexState).consecutiveLosses =
        c8CexState.consecutiveLosses + 1 ∧
      (Trading.record_fill 2 100 false c8CexState).isRestricted = true :=
  ⟨by simp [c8CexState, initState],
    (C8_consecutive_losses 2 100 false c8CexState (by simp [c8CexState, initState])).2.2.2.2.1,
    (C8_consecutive_losses 2 100 false c8CexState
        (by simp [c8CexState, initState])).2.2.2.2.2.1 (by simp [c8CexState, initState])⟩

/-- An action visible at the controller-loop boundary. -/
inductive LoopAction
  | logError
  | sleepSecs (q : ℚ)
deriving DecidableEq

/-- Whether the loop keeps running after the iteration. -/
inductive LoopOutcome
  | continueLoop
  | terminated
deriving DecidableEq

/-- The `except` handler of `symbol_trader` in `trading.py` (lines 486-489):
the error is logged only when shutdown is NOT in progress, and the 1-second
backoff `time.sleep(1)` runs unconditionally. -/
def tp_iteration_on_error (shutdown : Bool) : LoopOutcome × List LoopAction :=
  (LoopOutcome.continueLoop,
    (if shutdown = false then [LoopAction.logError] else []) ++ [LoopAction.sleepSecs 1])

/-- One `while` iteration of `symbol_trader` (`trading.py`): the whole body is
wrapped in `try`, so an erroring body reaches the handler and the loop always
continues. -/
def tp_iteration (shutdown : Bool) (body : Except String Unit) :
    LoopOutcome × List LoopAction :=
  match body with
  | Except.ok _ => (LoopOutcome.continueLoop, [])
  | Except.error _ => tp_iteration_on_error shutdown

/-- The `except` handler of `symbol_trader` in `trading_2.py` (lines 474-476):
always log, always back off 1 second, always continue. -/
def t2_iteration_on_error : LoopOutcome × List LoopAction :=
  (LoopOutcome.continueLoop, [LoopAction.logError, LoopAction.sleepSecs 1])

/-- C9 (amended): no per-iteration error terminates the loop — every failure
is caught at the loop boundary and followed by the 1-second backoff sleep,
shutdown or not; what active shutdown suppresses is the error LOG, not the
backoff.  The `trading_2.py` loop always logs and backs off. -/
theorem C9_loop_error_handling :
    (∀ (shutdown : Bool) (body : Except String Unit),
        (tp_iteration shutdown body).1 = LoopOutcome.continueLoop) ∧
      (∀ shutdown, LoopAction.sleepSecs 1 ∈ (tp_iteration_on_error shutdown).2) ∧
      LoopAction.logError ∈ (tp_iteration_on_error false).2 ∧
      LoopAction.logError ∉ (tp_iteration_on_error true).2 ∧
      t2_iteration_on_error =
        (LoopOutcome.continueLoop, [LoopAction.logError, LoopAction.sleepSecs 1]) := by
  refine ⟨fun shutdown body => ?_, fun shutdown => ?_, by simp [tp_iteration_on_error],
    by simp [tp_iteration_on_error], rfl⟩
  · cases body <;> rfl
  · cases shutdown <;> simp [tp_iteration_on_error]

/-- C9 counterexample: with shutdown active, the handler's action list still
contains the 1-second backoff sleep — the error is swallowed WITH the backoff
(only the log is skipped), contradicting the claimed exception. -/
theorem C9_loop_error_handling_counterexample :
    (tp_iteration_on_error true).2 = [LoopAction.sleepSecs 1] ∧
      LoopAction.sleepSecs 1 ∈ (tp_iteration_on_error true).2 := by
  refine ⟨by simp [tp_iteration_on_error], by simp [tp_iteration_on_error]⟩
